import Mathlib

/-!
Verification of the reference-resolution core of `fusionner` (`src/lib.rs`):
the `WatchReferences` watch matcher (`new`, `resolve_watch_refs`) and
`RepositoryConfiguration::resolve_target_ref`.

The repository's `git` module (providing `git::RemoteHead`, its
`flatten_clone` method and the `git::Remote` collaborator) and the external
`regex` crate (`RegexSet`) are not part of `src/lib.rs`; they are modelled
here, the former from the specification's data model and the latter as a
small derivative-based matcher over the regular-expression fragment the
configuration language exercises (literals, escapes, `\d`, `.`, grouping,
alternation, `*`/`+`/`?`, and the top-level anchors `^`/`$`; an unanchored
pattern matches any substring, as `regex::RegexSet::is_match` does).
-/

/-- Abstract syntax of the regular-expression fragment modelling the
`regex` crate patterns used by the watch configuration. -/
inductive Regex where
  | emptyset : Regex
  | epsilon : Regex
  | char (c : Char) : Regex
  | digit : Regex
  | any : Regex
  | concat (a b : Regex) : Regex
  | alt (a b : Regex) : Regex
  | star (a : Regex) : Regex
deriving DecidableEq, Repr, Inhabited

/-- Whether a regular expression accepts the empty string. -/
def Regex.nullable : Regex → Bool
  | .emptyset => false
  | .epsilon => true
  | .char _ => false
  | .digit => false
  | .any => false
  | .concat a b => a.nullable && b.nullable
  | .alt a b => a.nullable || b.nullable
  | .star _ => true

/-- Brzozowski derivative of a regular expression with respect to a character. -/
def Regex.deriv : Regex → Char → Regex
  | .emptyset, _ => .emptyset
  | .epsilon, _ => .emptyset
  | .char c, x => if x = c then .epsilon else .emptyset
  | .digit, x => if x.isDigit then .epsilon else .emptyset
  | .any, _ => .epsilon
  | .concat a b, x =>
      if a.nullable then .alt (.concat (a.deriv x) b) (b.deriv x)
      else .concat (a.deriv x) b
  | .alt a b, x => .alt (a.deriv x) (b.deriv x)
  | .star a, x => .concat (a.deriv x) (.star a)

/-- Run a regular expression over a character list by repeated derivation. -/
def Regex.matchList : Regex → List Char → Bool
  | r, [] => r.nullable
  | r, c :: cs => (r.deriv c).matchList cs

/-- Whether a compiled regular expression matches a whole string. -/
def Regex.rmatch (r : Regex) (s : String) : Bool :=
  r.matchList s.data

/-- Translate an escape character (the character after a backslash) into a
regular expression, as the modelled pattern syntax understands it. -/
def parseEscape (c : Char) : Except String Regex :=
  if c = 'd' then .ok .digit
  else if c ∈ ['\\', '.', '(', ')', '|', '*', '+', '?', '^', '$', '[', ']', '{', '}', '/', '-'] then
    .ok (.char c)
  else .error "unsupported escape sequence"

/-- Apply trailing repetition operators to a parsed atom. -/
def applyPostfix (r : Regex) : List Char → Regex × List Char
  | '*' :: rest => applyPostfix (.star r) rest
  | '+' :: rest => applyPostfix (.concat r (.star r)) rest
  | '?' :: rest => applyPostfix (.alt r .epsilon) rest
  | cs => (r, cs)

mutual

/-- Parse an alternation (`a|b|...`); fuel bounds recursion depth. -/
def parseAlt : Nat → List Char → Except String (Regex × List Char)
  | 0, _ => .error "pattern too deeply nested"
  | f + 1, cs => do
    let (r, cs') ← parseConcat f cs
    match cs' with
    | '|' :: rest => do
        let (r', rest') ← parseAlt f rest
        pure (.alt r r', rest')
    | _ => pure (r, cs')

/-- Parse a concatenation of repeated atoms, stopping at `|`, `)` or the end. -/
def parseConcat : Nat → List Char → Except String (Regex × List Char)
  | 0, _ => .error "pattern too deeply nested"
  | f + 1, cs =>
    match cs with
    | [] => pure (.epsilon, [])
    | ')' :: _ => pure (.epsilon, cs)
    | '|' :: _ => pure (.epsilon, cs)
    | _ => do
      let (r, cs') ← parseAtom f cs
      let (r, cs') := applyPostfix r cs'
      let (r', cs'') ← parseConcat f cs'
      pure (.concat r r', cs'')

/-- Parse a single atom: a group, an escape, `.`, or a literal character. -/
def parseAtom : Nat → List Char → Except String (Regex × List Char)
  | 0, _ => .error "pattern too deeply nested"
  | f + 1, cs =>
    match cs with
    | [] => .error "unexpected end of pattern"
    | '(' :: rest => do
      let (r, cs') ← parseAlt f rest
      match cs' with
      | ')' :: cs'' => pure (r, cs'')
      | _ => .error "unclosed group"
    | '\\' :: c :: rest => do
      let r ← parseEscape c
      pure (r, rest)
    | '\\' :: [] => .error "trailing backslash"
    | '.' :: rest => pure (.any, rest)
    | '[' :: _ => .error "unsupported construct"
    | '{' :: _ => .error "unsupported construct"
    | '*' :: _ => .error "repetition operator with nothing to repeat"
    | '+' :: _ => .error "repetition operator with nothing to repeat"
    | '?' :: _ => .error "repetition operator with nothing to repeat"
    | '^' :: _ => .error "unsupported anchor position"
    | '$' :: _ => .error "unsupported anchor position"
    | c :: rest => pure (.char c, rest)

end

/-- Strip a leading `^` anchor, reporting whether it was present. -/
def stripStartAnchor : List Char → Bool × List Char
  | '^' :: rest => (true, rest)
  | cs => (false, cs)

/-- Strip a trailing `$` anchor, reporting whether it was present. -/
def stripEndAnchor (cs : List Char) : Bool × List Char :=
  match cs.getLast? with
  | some '$' => (true, cs.dropLast)
  | _ => (false, cs)

/-- Compile one pattern string into a regular expression.  A pattern without
a `^` (resp. `$`) anchor is wrapped so that it matches anywhere in the
candidate string, mirroring the substring semantics of
`regex::RegexSet::is_match`. -/
def parseRegex (pattern : String) : Except String Regex :=
  let cs := pattern.data
  let (aStart, cs) := stripStartAnchor cs
  let (aEnd, cs) := stripEndAnchor cs
  match parseAlt (4 * cs.length + 8) cs with
  | .error e => .error e
  | .ok (r, []) =>
      let r := if aStart then r else .concat (.star .any) r
      let r := if aEnd then r else .concat r (.star .any)
      .ok r
  | .ok (_, _ :: _) => .error "unmatched closing parenthesis"

/-- Modelled from the `regex` crate: `RegexSet`, a compiled multi-pattern
matcher; the crate itself is an external dependency, not part of `src/`. -/
structure RegexSet where
  regexes : List Regex
deriving DecidableEq, Repr, Inhabited

/-- The error message `RegexSet::new` reports for a failing pattern,
identifying the offending pattern string and the reason. -/
def regexErrMsg (pattern : String) (e : String) : String :=
  "error parsing regex " ++ pattern ++ ": " ++ e

/-- Compile every pattern in order, failing on the first invalid one. -/
def compileAll : List String → Except String (List Regex)
  | [] => .ok []
  | p :: ps =>
    match parseRegex p with
    | .error e => .error (regexErrMsg p e)
    | .ok r =>
      match compileAll ps with
      | .error e => .error e
      | .ok rs => .ok (r :: rs)

/-- Modelled from the `regex` crate: `RegexSet::new` compiles a list of
pattern strings together, failing if any single pattern is invalid. -/
def RegexSet.new (patterns : List String) : Except String RegexSet :=
  match compileAll patterns with
  | .error e => .error e
  | .ok rs => .ok { regexes := rs }

/-- Modelled from the `regex` crate: `RegexSet::is_match` reports whether at
least one pattern of the set matches the candidate string. -/
def RegexSet.is_match (rs : RegexSet) (s : String) : Bool :=
  rs.regexes.any (fun r => r.rmatch s)

/-- Modelled from the spec: `git::RemoteHead` (the `git` module is not under
`src/`) — one advertised remote reference: a `name` and, when the reference
is an alias, a `symbolic_target` naming its concrete target (spec §3,
"Remote Reference"). -/
structure RemoteHead where
  name : String
  symbolic_target : Option String
deriving DecidableEq, Repr, Inhabited

/-- Modelled from the spec: `git::RemoteHead::flatten_clone` (the `git`
module is not under `src/`) — §4.1 step 1: if the reference has a
`symbolic_target`, substitute the target name; otherwise use its own name. -/
def RemoteHead.flatten_clone (r : RemoteHead) : String :=
  match r.symbolic_target with
  | some target => target
  | none => r.name

/-- Modelled from the spec: the `git::Remote` collaborator (the `git` module
is not under `src/`), restricted to the two read-only queries §6 specifies —
`remote_ls` (the advertised reference listing) and `head` (the optional
default/HEAD reference name, already flattened by the collaborator).  Both
queries are taken as having succeeded; transport errors are outside the
claims considered here. -/
structure Remote where
  remote_ls : List RemoteHead
  head : Option String
deriving DecidableEq, Repr, Inhabited

/-- Configuration struct for the repository (`src/lib.rs`); only
`target_ref` participates in the resolution logic under verification. -/
structure RepositoryConfiguration where
  uri : String
  checkout_path : String
  remote : Option String
  notes_namespace : Option String
  fetch_refspecs : List String
  push_refspecs : List String
  username : Option String
  password : Option String
  key : Option String
  key_passphrase : Option String
  target_ref : Option String
  signature_name : Option String
  signature_email : Option String
deriving DecidableEq, Repr, Inhabited

/-- `RepositoryConfiguration::resolve_target_ref` (`src/lib.rs` lines
74–94): with a configured target, list the remote references and fail
unless some entry's `name` field equals the configured string; without one,
fall back to the remote's default HEAD, failing when none is reported.
Errors are the `git_err!` message strings of the source. -/
def RepositoryConfiguration.resolve_target_ref (self : RepositoryConfiguration)
    (remote : Remote) : Except String String :=
  match self.target_ref with
  | some reference =>
    let remote_refs := remote.remote_ls
    if (remote_refs.find? (fun head => head.name == reference)).isNone then
      .error ("Could not find " ++ reference ++ " on remote")
    else
      .ok reference
  | none =>
    match remote.head with
    | none => .error "Could not find a default HEAD on remote"
    | some head => .ok head

/-- "Compiled" watch reference (`src/lib.rs`): a compiled pattern set plus
the list of exact names. -/
structure WatchReferences where
  regex_set : RegexSet
  exact_list : List String
deriving DecidableEq, Repr, Inhabited

/-- `WatchReferences::new` (`src/lib.rs` lines 98–108): keep the exact names
as given and compile the pattern list into a `RegexSet`, propagating any
compilation error. -/
def WatchReferences.new (exacts : List String) (regexes : List String) :
    Except String WatchReferences :=
  let exact_list := exacts
  match RegexSet.new regexes with
  | .error e => .error e
  | .ok regex_set => .ok { regex_set := regex_set, exact_list := exact_list }

/-- `WatchReferences::resolve_watch_refs` (`src/lib.rs` lines 112–127):
flatten the advertised heads, insert every configured exact name occurring
among the flattened names, then insert every flattened name matched by the
pattern set.  The Rust `HashSet` is modelled as a `Finset`. -/
def WatchReferences.resolve_watch_refs (self : WatchReferences)
    (remote_ls : List RemoteHead) : Finset String :=
  let refs : Finset String := ∅
  let flattened : List String := remote_ls.map RemoteHead.flatten_clone
  let refs :=
    (self.exact_list.filter (fun s => flattened.contains s)).foldl
      (fun acc s => insert s acc) refs
  let refs :=
    (flattened.filter (fun s => self.regex_set.is_match s)).foldl
      (fun acc s => insert s acc) refs
  refs

/-- A concrete repository configuration whose `target_ref` is
`refs/heads/master`; the non-resolution fields are immaterial dummies. -/
def c1Config : RepositoryConfiguration :=
  { uri := "https://example.com/repo.git", checkout_path := "/tmp/repo",
    remote := none, notes_namespace := none, fetch_refspecs := [],
    push_refspecs := [], username := none, password := none, key := none,
    key_passphrase := none, target_ref := some "refs/heads/master",
    signature_name := none, signature_email := none }

/-- A concrete repository configuration with no configured `target_ref`. -/
def defaultConfig : RepositoryConfiguration :=
  { c1Config with target_ref := none }

/-- Watch matcher compiled from the single exact name `refs/heads/master`
and no patterns. -/
def watchMaster : WatchReferences :=
  (WatchReferences.new ["refs/heads/master"] []).toOption.getD ⟨⟨[]⟩, []⟩

/-- Watch matcher compiled from no exact names and the two patterns
`^A$` and `^B$`. -/
def watchAB : WatchReferences :=
  (WatchReferences.new [] ["^A$", "^B$"]).toOption.getD ⟨⟨[]⟩, []⟩

/-- Watch matcher compiled from no exact names and the single pattern
`^B$`. -/
def watchB : WatchReferences :=
  (WatchReferences.new [] ["^B$"]).toOption.getD ⟨⟨[]⟩, []⟩

/-- Membership in a left fold of `Finset.insert`: exactly the elements of
the folded list together with those of the initial accumulator. -/
theorem mem_foldl_insert (l : List String) (init : Finset String) (x : String) :
    x ∈ l.foldl (fun acc s => insert s acc) init ↔ x ∈ l ∨ x ∈ init := by
  induction l generalizing init with
  | nil => simp
  | cons a t ih =>
    rw [List.foldl_cons, ih]
    simp only [List.mem_cons, Finset.mem_insert]
    tauto

/-- Characterisation of `resolve_watch_refs` membership: a name is in the
result exactly when it is an exact name occurring among the flattened heads
or a flattened head matched by the pattern set. -/
theorem mem_resolve_watch_refs (w : WatchReferences) (remote_ls : List RemoteHead)
    (x : String) :
    x ∈ w.resolve_watch_refs remote_ls ↔
      (x ∈ w.exact_list ∧ x ∈ remote_ls.map RemoteHead.flatten_clone) ∨
      (x ∈ remote_ls.map RemoteHead.flatten_clone ∧ w.regex_set.is_match x = true) := by
  simp only [WatchReferences.resolve_watch_refs, mem_foldl_insert, List.mem_filter,
    Finset.not_mem_empty, or_false]
  constructor
  · rintro (⟨h1, h2⟩ | ⟨h1, h2⟩)
    · exact Or.inr ⟨h1, h2⟩
    · refine Or.inl ⟨h1, ?_⟩
      simpa using h2
  · rintro (⟨h1, h2⟩ | ⟨h1, h2⟩)
    · refine Or.inr ⟨h1, ?_⟩
      simpa using h2
    · exact Or.inl ⟨h1, h2⟩

/-- If some pattern in the list fails to compile, `compileAll` fails, and
its error message names a failing pattern together with its parse error. -/
theorem compileAll_error_of_mem (ps : List String) (p e : String)
    (hp : p ∈ ps) (he : parseRegex p = .error e) :
    ∃ q e2, q ∈ ps ∧ parseRegex q = .error e2 ∧
      compileAll ps = .error (regexErrMsg q e2) := by
  induction ps with
  | nil => cases hp
  | cons a t ih =>
    cases hpe : parseRegex a with
    | error e2 =>
      exact ⟨a, e2, List.mem_cons_self a t, hpe, by simp [compileAll, hpe]⟩
    | ok r =>
      have hpt : p ∈ t := by
        rcases List.mem_cons.mp hp with rfl | h
        · rw [he] at hpe; cases hpe
        · exact h
      obtain ⟨q, e2, hq, hqe, hall⟩ := ih hpt
      exact ⟨q, e2, List.mem_cons_of_mem a hq, hqe, by simp [compileAll, hpe, hall]⟩

/-- C1 (counterexample): the claim says a configured target name is matched
against the remote listing after flattening symbolic entries.  On the
listing `[{name: "HEAD", symbolic_target: "refs/heads/master"}]` the
configured name `refs/heads/master` does appear among the flattened names,
yet `resolve_target_ref` fails with the target-not-found error, because the
source compares the configured name with each entry's raw `name` field and
never flattens. -/
theorem resolve_target_ref_flattening_counterexample :
    c1Config.target_ref = some "refs/heads/master" ∧
    "refs/heads/master" ∈
      ([⟨"HEAD", some "refs/heads/master"⟩] : List RemoteHead).map RemoteHead.flatten_clone ∧
    c1Config.resolve_target_ref ⟨[⟨"HEAD", some "refs/heads/master"⟩], none⟩ =
      .error "Could not find refs/heads/master on remote" :=
  ⟨rfl, by simp [RemoteHead.flatten_clone], rfl⟩

/-- C1 (amended): with a configured target name, `resolve_target_ref`
returns the name unchanged when it equals some listing entry's own
(unflattened) `name`, and otherwise fails with the target-not-found error
carrying the configured name. -/
theorem resolve_target_ref_matches_raw_names (cfg : RepositoryConfiguration)
    (r : Remote) (name : String) (h : cfg.target_ref = some name) :
    (name ∈ r.remote_ls.map RemoteHead.name ∧
      cfg.resolve_target_ref r = .ok name) ∨
    (name ∉ r.remote_ls.map RemoteHead.name ∧
      cfg.resolve_target_ref r = .error ("Could not find " ++ name ++ " on remote")) := by
  rw [RepositoryConfiguration.resolve_target_ref, h]
  cases hfind : r.remote_ls.find? (fun head => head.name == name) with
  | none =>
    refine Or.inr ⟨?_, by simp [hfind]⟩
    intro hmem
    obtain ⟨a, ha, hname⟩ := List.mem_map.mp hmem
    have := List.find?_eq_none.mp hfind a ha
    simp [hname] at this
  | some a =>
    refine Or.inl ⟨?_, by simp [hfind]⟩
    have hmem := List.mem_of_find?_eq_some hfind
    have hname : a.name = name := by
      have := List.find?_some hfind
      simpa using this
    exact List.mem_map.mpr ⟨a, hmem, hname⟩

/-- C1 (witness): on a listing whose entry is literally named
`refs/heads/master`, the configured name resolves to itself. -/
theorem resolve_target_ref_matches_raw_names_witness :
    c1Config.resolve_target_ref ⟨[⟨"refs/heads/master", none⟩], none⟩ =
      .ok "refs/heads/master" := by
  rcases resolve_target_ref_matches_raw_names c1Config
      ⟨[⟨"refs/heads/master", none⟩], none⟩ "refs/heads/master" rfl with
    ⟨_, hok⟩ | ⟨hnot, _⟩
  · exact hok
  · exact absurd (by simp [RemoteHead.name]) hnot

/-- C7: with no configured target, `resolve_target_ref` returns exactly the
remote's advertised default/HEAD name when one is reported, and fails with
the no-default-HEAD error when the remote reports none. -/
theorem resolve_target_ref_default_head (cfg : RepositoryConfiguration)
    (r : Remote) (h : cfg.target_ref = none) :
    (∀ d, r.head = some d → cfg.resolve_target_ref r = .ok d) ∧
    (r.head = none →
      cfg.resolve_target_ref r = .error "Could not find a default HEAD on remote") := by
  rw [RepositoryConfiguration.resolve_target_ref, h]
  constructor
  · intro d hd
    rw [hd]
  · intro hd
    rw [hd]

/-- C7 (witness): a remote reporting default `refs/heads/master` resolves to
it, and a remote reporting no default yields the no-default-HEAD error. -/
theorem resolve_target_ref_default_head_witness :
    defaultConfig.resolve_target_ref ⟨[], some "refs/heads/master"⟩ =
      .ok "refs/heads/master" ∧
    defaultConfig.resolve_target_ref ⟨[], none⟩ =
      .error "Could not find a default HEAD on remote" :=
  ⟨(resolve_target_ref_default_head defaultConfig ⟨[], some "refs/heads/master"⟩ rfl).1
      "refs/heads/master" rfl,
    (resolve_target_ref_default_head defaultConfig ⟨[], none⟩ rfl).2 rfl⟩

/-- C2: soundness of the watch matcher — every name in the set returned by
`resolve_watch_refs` is either a configured exact name occurring among the
flattened remote names or a flattened remote name matched by the compiled
pattern set (and hence by at least one configured pattern). -/
theorem resolve_watch_refs_sound (w : WatchReferences) (remote_ls : List RemoteHead)
    (n : String) (h : n ∈ w.resolve_watch_refs remote_ls) :
    (n ∈ w.exact_list ∧ n ∈ remote_ls.map RemoteHead.flatten_clone) ∨
    (n ∈ remote_ls.map RemoteHead.flatten_clone ∧ w.regex_set.is_match n = true) :=
  (mem_resolve_watch_refs w remote_ls n).mp h

/-- C2 (witness): on a one-entry snapshot, the only returned name
`refs/heads/master` is accounted for by the exact-name rule. -/
theorem resolve_watch_refs_sound_witness :
    ("refs/heads/master" ∈ watchMaster.exact_list ∧
      "refs/heads/master" ∈
        ([⟨"refs/heads/master", none⟩] : List RemoteHead).map RemoteHead.flatten_clone) ∨
    ("refs/heads/master" ∈
        ([⟨"refs/heads/master", none⟩] : List RemoteHead).map RemoteHead.flatten_clone ∧
      watchMaster.regex_set.is_match "refs/heads/master" = true) :=
  resolve_watch_refs_sound watchMaster [⟨"refs/heads/master", none⟩]
    "refs/heads/master" (by decide)

/-- C3: completeness for exact matches — every configured exact name that
occurs verbatim among the flattened remote names is in the result of
`resolve_watch_refs`. -/
theorem resolve_watch_refs_exact_complete (w : WatchReferences)
    (remote_ls : List RemoteHead) (n : String) (hx : n ∈ w.exact_list)
    (hf : n ∈ remote_ls.map RemoteHead.flatten_clone) :
    n ∈ w.resolve_watch_refs remote_ls :=
  (mem_resolve_watch_refs w remote_ls n).mpr (Or.inl ⟨hx, hf⟩)

/-- C3 (witness): the configured exact name `refs/heads/master`, present in
the snapshot, is returned. -/
theorem resolve_watch_refs_exact_complete_witness :
    "refs/heads/master" ∈ watchMaster.resolve_watch_refs [⟨"refs/heads/master", none⟩] :=
  resolve_watch_refs_exact_complete watchMaster [⟨"refs/heads/master", none⟩]
    "refs/heads/master" (by decide) (by decide)

/-- C4 (counterexample): the claim says that whenever a snapshot has a
symbolic reference whose flattened target matches a configured pattern, the
result omits the symbolic reference's own name.  In the snapshot
`[{name: "A", symbolic_target: "B"}, {name: "C", symbolic_target: "A"}]`
with patterns `^A$` and `^B$`, the entry `A` is symbolic with target `B`
(which matches `^B$`), yet the result also contains the name `A`, because a
second entry flattens to `A` and `A` is pattern-matched. -/
theorem resolve_watch_refs_symbolic_name_counterexample :
    WatchReferences.new [] ["^A$", "^B$"] = .ok watchAB ∧
    (⟨"A", some "B"⟩ : RemoteHead).symbolic_target = some "B" ∧
    watchAB.regex_set.is_match "B" = true ∧
    "B" ∈ watchAB.resolve_watch_refs [⟨"A", some "B"⟩, ⟨"C", some "A"⟩] ∧
    "A" ∈ watchAB.resolve_watch_refs [⟨"A", some "B"⟩, ⟨"C", some "A"⟩] :=
  ⟨rfl, rfl, by decide, by decide, by decide⟩

/-- C4 (amended): if a snapshot entry is symbolic with flattened target `t`
matched by the pattern set, and the entry's own name does not occur among
the snapshot's flattened names, then the result contains `t` and does not
contain the symbolic name; the result being a finite set, `t` occurs in it
exactly once. -/
theorem resolve_watch_refs_symbolic_target (w : WatchReferences)
    (remote_ls : List RemoteHead) (r : RemoteHead) (t : String)
    (hr : r ∈ remote_ls) (ht : r.symbolic_target = some t)
    (hm : w.regex_set.is_match t = true)
    (hn : r.name ∉ remote_ls.map RemoteHead.flatten_clone) :
    t ∈ w.resolve_watch_refs remote_ls ∧
      r.name ∉ w.resolve_watch_refs remote_ls := by
  have hflat : r.flatten_clone = t := by
    rw [RemoteHead.flatten_clone, ht]
  have htf : t ∈ remote_ls.map RemoteHead.flatten_clone :=
    List.mem_map.mpr ⟨r, hr, hflat⟩
  constructor
  · exact (mem_resolve_watch_refs w remote_ls t).mpr (Or.inr ⟨htf, hm⟩)
  · intro habs
    rcases (mem_resolve_watch_refs w remote_ls r.name).mp habs with ⟨_, hin⟩ | ⟨hin, _⟩
    · exact hn hin
    · exact hn hin

/-- C4 (witness): watching pattern `^B$` over the snapshot
`[{name: "HEAD", symbolic_target: "B"}]` yields a set containing `B` and
not containing `HEAD`. -/
theorem resolve_watch_refs_symbolic_target_witness :
    "B" ∈ watchB.resolve_watch_refs [⟨"HEAD", some "B"⟩] ∧
      "HEAD" ∉ watchB.resolve_watch_refs [⟨"HEAD", some "B"⟩] :=
  resolve_watch_refs_symbolic_target watchB [⟨"HEAD", some "B"⟩]
    ⟨"HEAD", some "B"⟩ "B" (by decide) rfl (by decide) (by decide)

/-- C5: a watch matcher compiled from an empty exact-name list and an empty
pattern list resolves every snapshot to the empty set. -/
theorem resolve_watch_refs_empty_spec (remote_ls : List RemoteHead)
    (w : WatchReferences) (h : WatchReferences.new [] [] = .ok w) :
    w.resolve_watch_refs remote_ls = ∅ := by
  have hw : w = ⟨⟨[]⟩, []⟩ := by
    have h0 : WatchReferences.new [] [] = .ok ⟨⟨[]⟩, []⟩ := rfl
    rw [h0] at h
    exact ((Except.ok.injEq
      (⟨⟨[]⟩, []⟩ : WatchReferences) w).mp h).symm
  subst hw
  ext x
  simp [mem_resolve_watch_refs, RegexSet.is_match]

/-- C5 (witness): the empty watch matcher resolves a nonempty snapshot to
the empty set. -/
theorem resolve_watch_refs_empty_spec_witness :
    (⟨⟨[]⟩, []⟩ : WatchReferences).resolve_watch_refs
      [⟨"refs/heads/master", none⟩, ⟨"HEAD", some "refs/heads/master"⟩] = ∅ :=
  resolve_watch_refs_empty_spec
    [⟨"refs/heads/master", none⟩, ⟨"HEAD", some "refs/heads/master"⟩]
    ⟨⟨[]⟩, []⟩ rfl

/-- C6: if any pattern in the list fails to compile, `WatchReferences::new`
returns an error — so no matcher value, even a partly usable one, is
constructed — and the error names a failing pattern together with the
reason it failed. -/
theorem watch_references_new_invalid_pattern (exacts regexes : List String)
    (p e : String) (hp : p ∈ regexes) (he : parseRegex p = .error e) :
    ∃ q e2, q ∈ regexes ∧ parseRegex q = .error e2 ∧
      WatchReferences.new exacts regexes = .error (regexErrMsg q e2) := by
  obtain ⟨q, e2, hq, hqe, hall⟩ := compileAll_error_of_mem regexes p e hp he
  exact ⟨q, e2, hq, hqe, by simp [WatchReferences.new, RegexSet.new, hall]⟩

/-- C6 (witness): the unbalanced group `(` makes construction fail with an
error naming the pattern and its parse error. -/
theorem watch_references_new_invalid_pattern_witness :
    ∃ q e2, q ∈ ["("] ∧ parseRegex q = .error e2 ∧
      WatchReferences.new ["refs/heads/master"] ["("] = .error (regexErrMsg q e2) :=
  watch_references_new_invalid_pattern ["refs/heads/master"] ["("]
    "(" "unclosed group" (by decide) rfl

/-- C8: a configured exact name that equals no flattened remote name is
simply absent from the result of `resolve_watch_refs`; the evaluation is a
total function into a set of names, so it fails on no input and reports
nothing about unmatched watch entries. -/
theorem resolve_watch_refs_unmatched_exact_absent (w : WatchReferences)
    (remote_ls : List RemoteHead) (s : String) (_hs : s ∈ w.exact_list)
    (hn : s ∉ remote_ls.map RemoteHead.flatten_clone) :
    s ∉ w.resolve_watch_refs remote_ls := by
  intro habs
  rcases (mem_resolve_watch_refs w remote_ls s).mp habs with ⟨_, hin⟩ | ⟨hin, _⟩
  · exact hn hin
  · exact hn hin

/-- C8 (witness): the configured exact name `refs/heads/master` is silently
absent when the snapshot only advertises `refs/heads/dev`. -/
theorem resolve_watch_refs_unmatched_exact_absent_witness :
    "refs/heads/master" ∉ watchMaster.resolve_watch_refs [⟨"refs/heads/dev", none⟩] :=
  resolve_watch_refs_unmatched_exact_absent watchMaster [⟨"refs/heads/dev", none⟩]
    "refs/heads/master" (by decide) (by decide)

/-- C9: every watch matcher resolves the empty snapshot to the empty set. -/
theorem resolve_watch_refs_empty_snapshot (w : WatchReferences) :
    w.resolve_watch_refs [] = ∅ := by
  ext x
  simp [mem_resolve_watch_refs]

/-- C10: monotonicity — if every reference of one snapshot also occurs in a
second snapshot, the resolved watch set of the first is a subset of that of
the second; adding advertised references never removes a resolved name. -/
theorem resolve_watch_refs_monotone (w : WatchReferences)
    (ls1 ls2 : List RemoteHead) (h : ∀ r, r ∈ ls1 → r ∈ ls2) :
    w.resolve_watch_refs ls1 ⊆ w.resolve_watch_refs ls2 := by
  intro x hx
  have hmap : ∀ y : String, y ∈ ls1.map RemoteHead.flatten_clone →
      y ∈ ls2.map RemoteHead.flatten_clone := by
    intro y hy
    obtain ⟨a, ha, rfl⟩ := List.mem_map.mp hy
    exact List.mem_map.mpr ⟨a, h a ha, rfl⟩
  rcases (mem_resolve_watch_refs w ls1 x).mp hx with ⟨h1, h2⟩ | ⟨h1, h2⟩
  · exact (mem_resolve_watch_refs w ls2 x).mpr (Or.inl ⟨h1, hmap x h2⟩)
  · exact (mem_resolve_watch_refs w ls2 x).mpr (Or.inr ⟨hmap x h1, h2⟩)

/-- C10 (witness): extending a snapshot with `refs/heads/dev` preserves the
resolved set of the smaller snapshot. -/
theorem resolve_watch_refs_monotone_witness :
    watchMaster.resolve_watch_refs [⟨"refs/heads/master", none⟩] ⊆
      watchMaster.resolve_watch_refs
        [⟨"refs/heads/master", none⟩, ⟨"refs/heads/dev", none⟩] :=
  resolve_watch_refs_monotone watchMaster [⟨"refs/heads/master", none⟩]
    [⟨"refs/heads/master", none⟩, ⟨"refs/heads/dev", none⟩]
    (by intro r hr; rcases List.mem_singleton.mp hr with rfl; simp)
